import Mathlib

/-!
Verification of the task-copilot agent-execution orchestration core:
a shallow embedding of the Flow Manager (`flow_manager.rs`), the Build
History Store (`task_build_history.rs`) and the review-action spawn
contract (`review_agent.rs`), together with theorems settling the
specification's claims about them.
-/

namespace TaskCopilot

/-- Error type of the flow subsystem (`FlowError` in `flow_manager.rs`). -/
inductive FlowError where
  | InvalidIntent (msg : String)
  | ExecutionFailed (msg : String)
  | ConfigError (msg : String)
deriving DecidableEq, Repr

/-- The closed set of workflow intents (`FlowIntent`). -/
inductive FlowIntent where
  | Code
  | Jira
  | Confluence
deriving DecidableEq, Repr

/-- The `Display` implementation of `FlowIntent` (lower-case wire spelling). -/
def FlowIntent.display : FlowIntent → String
  | .Code => "code"
  | .Jira => "jira"
  | .Confluence => "confluence"

/-- Lifecycle status of one flow action (`FlowActionStatus`). -/
inductive FlowActionStatus where
  | Pending
  | InProgress
  | Completed
  | Failed
deriving DecidableEq, Repr

/-- One step of a flow (`FlowAction`). -/
structure FlowAction where
  name : String
  description : String
  status : FlowActionStatus
deriving DecidableEq, Repr

/-- A flow summary: intent, description and ordered action list (`FlowSummary`). -/
structure FlowSummary where
  intent : FlowIntent
  description : String
  actions : List FlowAction
deriving DecidableEq, Repr

/-- Input of `create_code_flow` (`CodeFlowInput`). -/
structure CodeFlowInput where
  title : String
  description : String
  repository_path : Option String
deriving DecidableEq, Repr

/-- Input of `create_jira_flow` (`JiraFlowInput`). -/
structure JiraFlowInput where
  title : String
  description : String
  project_key : Option String
deriving DecidableEq, Repr

/-- Input of `create_confluence_flow` (`ConfluenceFlowInput`). -/
structure ConfluenceFlowInput where
  title : String
  description : String
  space_key : Option String
deriving DecidableEq, Repr

/-- A flow manager bound to one intent (`FlowManager`). -/
structure FlowManager where
  intent : FlowIntent
deriving DecidableEq, Repr

/-- `FlowManager::new`. -/
def FlowManager.new (intent : FlowIntent) : FlowManager := ⟨intent⟩

/-- `FlowManager::create_code_flow`: guard on the bound intent, then the fixed
five-action Code template, every action Pending. -/
def FlowManager.create_code_flow (m : FlowManager) (input : CodeFlowInput) :
    Except FlowError FlowSummary :=
  if m.intent ≠ FlowIntent.Code then
    .error (.InvalidIntent ("Expected Code intent, got " ++ m.intent.display))
  else
    .ok
      { intent := .Code
        description := "Code flow: " ++ input.title
        actions :=
          [ ⟨"Check Existing Code",
             "Analyze current codebase and identify relevant files", .Pending⟩,
            ⟨"Create Issue",
             "Create task tracking issue for changes", .Pending⟩,
            ⟨"Implement Solution",
             "Generate code changes based on requirements", .Pending⟩,
            ⟨"Fix Issues",
             "Address any errors or test failures", .Pending⟩,
            ⟨"Override Files",
             "Apply changes to repository files", .Pending⟩ ] }

/-- `FlowManager::create_jira_flow`: guard on the bound intent, then the fixed
five-action Jira template, every action Pending. -/
def FlowManager.create_jira_flow (m : FlowManager) (input : JiraFlowInput) :
    Except FlowError FlowSummary :=
  if m.intent ≠ FlowIntent.Jira then
    .error (.InvalidIntent ("Expected Jira intent, got " ++ m.intent.display))
  else
    .ok
      { intent := .Jira
        description := "Jira flow: " ++ input.title
        actions :=
          [ ⟨"Read Title & Description",
             "Parse and understand Jira requirements", .Pending⟩,
            ⟨"Analyze Requirements",
             "Use agents to analyze best approach for solution", .Pending⟩,
            ⟨"Generate Task Proposal",
             "Create detailed task breakdown and implementation plan", .Pending⟩,
            ⟨"Review Jira",
             "Present proposal for review (no code modifications)", .Pending⟩,
            ⟨"Finalize",
             "Confirm and save Jira task proposal", .Pending⟩ ] }

/-- `FlowManager::create_confluence_flow`: guard on the bound intent, then the
fixed five-action Confluence template, every action Pending. -/
def FlowManager.create_confluence_flow (m : FlowManager) (input : ConfluenceFlowInput) :
    Except FlowError FlowSummary :=
  if m.intent ≠ FlowIntent.Confluence then
    .error (.InvalidIntent ("Expected Confluence intent, got " ++ m.intent.display))
  else
    .ok
      { intent := .Confluence
        description := "Confluence flow: " ++ input.title
        actions :=
          [ ⟨"Read Title & Description",
             "Parse and understand documentation requirements", .Pending⟩,
            ⟨"Analyze Documentation Needs",
             "Use agents to determine best documentation structure", .Pending⟩,
            ⟨"Generate Documentation",
             "Create comprehensive Confluence page content", .Pending⟩,
            ⟨"Review Confluence",
             "Present documentation for review (no code modifications)", .Pending⟩,
            ⟨"Finalize",
             "Confirm and save Confluence documentation", .Pending⟩ ] }

/-- The terminal status the Code runner assigns to an action, by the exhaustive
match on its name in `execute_code_flow`. -/
def resolveCodeAction (name : String) : FlowActionStatus :=
  match name with
  | "Check Existing Code" => .Completed
  | "Create Issue" => .Completed
  | "Implement Solution" => .Completed
  | "Fix Issues" => .Completed
  | "Override Files" => .Completed
  | _ => .Failed

/-- The terminal status the Jira runner assigns to an action, by the exhaustive
match on its name in `execute_jira_flow`. -/
def resolveJiraAction (name : String) : FlowActionStatus :=
  match name with
  | "Read Title & Description" => .Completed
  | "Analyze Requirements" => .Completed
  | "Generate Task Proposal" => .Completed
  | "Review Jira" => .Pending
  | "Finalize" => .Pending
  | _ => .Failed

/-- The terminal status the Confluence runner assigns to an action, by the
exhaustive match on its name in `execute_confluence_flow`. -/
def resolveConfluenceAction (name : String) : FlowActionStatus :=
  match name with
  | "Read Title & Description" => .Completed
  | "Analyze Documentation Needs" => .Completed
  | "Generate Documentation" => .Completed
  | "Review Confluence" => .Pending
  | "Finalize" => .Pending
  | _ => .Failed

/-- The name-resolution function of the runner for each intent. -/
def resolveFor : FlowIntent → String → FlowActionStatus
  | .Code => resolveCodeAction
  | .Jira => resolveJiraAction
  | .Confluence => resolveConfluenceAction

/-- One iteration of a runner's loop body on one action: the status field is
first assigned `InProgress`, then the value resolved from the name. The first
component is the sequence of values the status field holds during the
iteration (initial, then each assignment); the second is the finished action. -/
def runAction (resolve : String → FlowActionStatus) (a : FlowAction) :
    List FlowActionStatus × FlowAction :=
  ([a.status, FlowActionStatus.InProgress, resolve a.name],
   { a with status := resolve a.name })

/-- `FlowManager::execute_code_flow`: run every action in order, return the
finished list. -/
def FlowManager.execute_code_flow (_m : FlowManager) (summary : FlowSummary) :
    Except FlowError (List FlowAction) :=
  .ok (summary.actions.map (fun a => (runAction resolveCodeAction a).2))

/-- `FlowManager::execute_jira_flow`: run every action in order, return the
finished list. -/
def FlowManager.execute_jira_flow (_m : FlowManager) (summary : FlowSummary) :
    Except FlowError (List FlowAction) :=
  .ok (summary.actions.map (fun a => (runAction resolveJiraAction a).2))

/-- `FlowManager::execute_confluence_flow`: run every action in order, return
the finished list. -/
def FlowManager.execute_confluence_flow (_m : FlowManager) (summary : FlowSummary) :
    Except FlowError (List FlowAction) :=
  .ok (summary.actions.map (fun a => (runAction resolveConfluenceAction a).2))

/-- `FlowManager::execute_flow`: dispatch on the manager's bound intent. -/
def FlowManager.execute_flow (m : FlowManager) (summary : FlowSummary) :
    Except FlowError (List FlowAction) :=
  match m.intent with
  | .Code => m.execute_code_flow summary
  | .Jira => m.execute_jira_flow summary
  | .Confluence => m.execute_confluence_flow summary

/-- The documented table order of action names per intent (spec section 4.1,
matching the literals of the create functions and the runner matches). -/
def templateNames : FlowIntent → List String
  | .Code =>
      ["Check Existing Code", "Create Issue", "Implement Solution",
       "Fix Issues", "Override Files"]
  | .Jira =>
      ["Read Title & Description", "Analyze Requirements",
       "Generate Task Proposal", "Review Jira", "Finalize"]
  | .Confluence =>
      ["Read Title & Description", "Analyze Documentation Needs",
       "Generate Documentation", "Review Confluence", "Finalize"]

/-- C1: calling a `create_*_flow` whose kind does not match the manager's
bound intent returns `InvalidIntent` and no summary; the matching call returns
a summary of exactly 5 actions, named in the documented table order for that
intent, each with initial status Pending. -/
theorem c1_create_flow_templates
    (i : FlowIntent) (ci : CodeFlowInput) (ji : JiraFlowInput)
    (fi : ConfluenceFlowInput) :
    (i ≠ FlowIntent.Code →
      ∃ msg, (FlowManager.new i).create_code_flow ci = .error (.InvalidIntent msg)) ∧
    (i ≠ FlowIntent.Jira →
      ∃ msg, (FlowManager.new i).create_jira_flow ji = .error (.InvalidIntent msg)) ∧
    (i ≠ FlowIntent.Confluence →
      ∃ msg, (FlowManager.new i).create_confluence_flow fi = .error (.InvalidIntent msg)) ∧
    (∃ s, (FlowManager.new FlowIntent.Code).create_code_flow ci = .ok s ∧
      s.actions.length = 5 ∧
      s.actions.map FlowAction.name = templateNames FlowIntent.Code ∧
      ∀ a ∈ s.actions, a.status = FlowActionStatus.Pending) ∧
    (∃ s, (FlowManager.new FlowIntent.Jira).create_jira_flow ji = .ok s ∧
      s.actions.length = 5 ∧
      s.actions.map FlowAction.name = templateNames FlowIntent.Jira ∧
      ∀ a ∈ s.actions, a.status = FlowActionStatus.Pending) ∧
    (∃ s, (FlowManager.new FlowIntent.Confluence).create_confluence_flow fi = .ok s ∧
      s.actions.length = 5 ∧
      s.actions.map FlowAction.name = templateNames FlowIntent.Confluence ∧
      ∀ a ∈ s.actions, a.status = FlowActionStatus.Pending) := by
  refine ⟨?_, ?_, ?_, ?_, ?_, ?_⟩
  · intro h
    exact ⟨"Expected Code intent, got " ++ i.display, by
      cases i <;> simp [FlowManager.new, FlowManager.create_code_flow] at h ⊢⟩
  · intro h
    exact ⟨"Expected Jira intent, got " ++ i.display, by
      cases i <;> simp [FlowManager.new, FlowManager.create_jira_flow] at h ⊢⟩
  · intro h
    exact ⟨"Expected Confluence intent, got " ++ i.display, by
      cases i <;> simp [FlowManager.new, FlowManager.create_confluence_flow] at h ⊢⟩
  · exact ⟨_, rfl, rfl, rfl, by intro a ha; simp at ha; rcases ha with h | h | h | h | h <;> simp [h]⟩
  · exact ⟨_, rfl, rfl, rfl, by intro a ha; simp at ha; rcases ha with h | h | h | h | h <;> simp [h]⟩
  · exact ⟨_, rfl, rfl, rfl, by intro a ha; simp at ha; rcases ha with h | h | h | h | h <;> simp [h]⟩

/-- Closed witness for `c1_create_flow_templates`, instantiated at a Jira-bound
manager and concrete inputs. -/
theorem c1_create_flow_templates_witness :
    ∃ msg, (FlowManager.new FlowIntent.Jira).create_code_flow
      ⟨"Test", "Test", none⟩ = .error (.InvalidIntent msg) :=
  (c1_create_flow_templates FlowIntent.Jira ⟨"Test", "Test", none⟩
    ⟨"Test", "Test", none⟩ ⟨"Test", "Test", none⟩).1 (by decide)

theorem execute_flow_spec (m : FlowManager) (s : FlowSummary) :
    m.execute_flow s =
      .ok (s.actions.map (fun a => (runAction (resolveFor m.intent) a).2)) := by
  obtain ⟨i⟩ := m
  cases i <;> rfl

theorem resolveFor_of_not_mem {i : FlowIntent} {n : String}
    (h : n ∉ templateNames i) : resolveFor i n = FlowActionStatus.Failed := by
  cases i <;> simp only [resolveFor, templateNames] at h ⊢
  · unfold resolveCodeAction
    split <;> simp_all
  · unfold resolveJiraAction
    split <;> simp_all
  · unfold resolveConfluenceAction
    split <;> simp_all

theorem resolveFor_ne_inprogress (i : FlowIntent) (n : String) :
    resolveFor i n ≠ FlowActionStatus.InProgress := by
  cases i <;> simp only [resolveFor]
  · unfold resolveCodeAction
    split <;> simp
  · unfold resolveJiraAction
    split <;> simp
  · unfold resolveConfluenceAction
    split <;> simp

/-- C2: `execute_flow` on summaries built by the matching `create_*_flow`
returns all 5 actions Completed for the Code intent, and the first 3 Completed
with the last 2 Pending for the Jira and Confluence intents. -/
theorem c2_execute_matching_flows
    (ci : CodeFlowInput) (ji : JiraFlowInput) (fi : ConfluenceFlowInput)
    (sc sj sf : FlowSummary)
    (hc : (FlowManager.new FlowIntent.Code).create_code_flow ci = .ok sc)
    (hj : (FlowManager.new FlowIntent.Jira).create_jira_flow ji = .ok sj)
    (hf : (FlowManager.new FlowIntent.Confluence).create_confluence_flow fi = .ok sf) :
    (∃ l, (FlowManager.new FlowIntent.Code).execute_flow sc = .ok l ∧
      l.map FlowAction.status =
        [.Completed, .Completed, .Completed, .Completed, .Completed]) ∧
    (∃ l, (FlowManager.new FlowIntent.Jira).execute_flow sj = .ok l ∧
      l.map FlowAction.status =
        [.Completed, .Completed, .Completed, .Pending, .Pending]) ∧
    (∃ l, (FlowManager.new FlowIntent.Confluence).execute_flow sf = .ok l ∧
      l.map FlowAction.status =
        [.Completed, .Completed, .Completed, .Pending, .Pending]) := by
  simp [FlowManager.new, FlowManager.create_code_flow,
    FlowManager.create_jira_flow, FlowManager.create_confluence_flow] at hc hj hf
  subst hc hj hf
  exact ⟨⟨_, rfl, rfl⟩, ⟨_, rfl, rfl⟩, ⟨_, rfl, rfl⟩⟩

/-- Closed witness for `c2_execute_matching_flows` at concrete inputs. -/
theorem c2_execute_matching_flows_witness :
    ∃ l, (FlowManager.new FlowIntent.Jira).execute_flow
      { intent := .Jira
        description := "Jira flow: " ++ "PROJ-123: Database migration"
        actions :=
          [ ⟨"Read Title & Description",
             "Parse and understand Jira requirements", .Pending⟩,
            ⟨"Analyze Requirements",
             "Use agents to analyze best approach for solution", .Pending⟩,
            ⟨"Generate Task Proposal",
             "Create detailed task breakdown and implementation plan", .Pending⟩,
            ⟨"Review Jira",
             "Present proposal for review (no code modifications)", .Pending⟩,
            ⟨"Finalize",
             "Confirm and save Jira task proposal", .Pending⟩ ] } = .ok l ∧
      l.map FlowAction.status =
        [.Completed, .Completed, .Completed, .Pending, .Pending] :=
  (c2_execute_matching_flows
    ⟨"Test", "Test", none⟩
    ⟨"PROJ-123: Database migration", "Migrate from MySQL to PostgreSQL", some "PROJ"⟩
    ⟨"Test", "Test", none⟩ _ _ _ rfl rfl rfl).2.1

/-- C3: `execute_flow` never returns an error: the runner visits every action
in order, each iteration sets the action to InProgress before resolving its
terminal status from its name, a name outside the known template is assigned
Failed rather than raising an error, and per-action failure is reported only as
data in the returned list. -/
theorem c3_execute_never_errors (m : FlowManager) (s : FlowSummary) :
    m.execute_flow s =
      .ok (s.actions.map (fun a => (runAction (resolveFor m.intent) a).2)) ∧
    (∀ a ∈ s.actions,
      (runAction (resolveFor m.intent) a).1 =
        [a.status, FlowActionStatus.InProgress, resolveFor m.intent a.name]) ∧
    (∀ a ∈ s.actions, a.name ∉ templateNames m.intent →
      ((runAction (resolveFor m.intent) a).2).status = FlowActionStatus.Failed) := by
  refine ⟨execute_flow_spec m s, fun a _ => rfl, fun a _ h => ?_⟩
  simp [runAction, resolveFor_of_not_mem h]

/-- Closed witness for `c3_execute_never_errors`: a summary holding an action
whose name is outside every template still executes to an ok result, with that
action marked Failed. -/
theorem c3_execute_never_errors_witness :
    (FlowManager.new FlowIntent.Code).execute_flow
        ⟨.Code, "d", [⟨"Bogus Step", "d", .Pending⟩]⟩ =
      .ok ([⟨"Bogus Step", "d", FlowActionStatus.Pending⟩].map
        (fun a => (runAction (resolveFor FlowIntent.Code) a).2)) ∧
    ((runAction (resolveFor FlowIntent.Code)
        ⟨"Bogus Step", "d", .Pending⟩).2).status = FlowActionStatus.Failed :=
  ⟨(c3_execute_never_errors (FlowManager.new FlowIntent.Code)
      ⟨.Code, "d", [⟨"Bogus Step", "d", .Pending⟩]⟩).1,
   (c3_execute_never_errors (FlowManager.new FlowIntent.Code)
      ⟨.Code, "d", [⟨"Bogus Step", "d", .Pending⟩]⟩).2.2
     ⟨"Bogus Step", "d", .Pending⟩ (by simp) (by decide)⟩

/-- The transition relation claimed by the spec: Pending to InProgress, and
InProgress to Completed or Failed, and nothing else. -/
def claimTransition : FlowActionStatus → FlowActionStatus → Bool
  | .Pending, .InProgress => true
  | .InProgress, .Completed => true
  | .InProgress, .Failed => true
  | _, _ => false

/-- The claimed transition relation extended with the one transition the code
actually performs beyond it: InProgress back to Pending (the human-review and
finalize steps of the Jira and Confluence runners). -/
def amendedTransition : FlowActionStatus → FlowActionStatus → Bool
  | .Pending, .InProgress => true
  | .InProgress, .Completed => true
  | .InProgress, .Failed => true
  | .InProgress, .Pending => true
  | _, _ => false

/-- Whether every adjacent pair of a status sequence is an allowed transition. -/
def statusTransitionsWithin (allowed : FlowActionStatus → FlowActionStatus → Bool) :
    List FlowActionStatus → Bool
  | [] => true
  | [_] => true
  | a :: b :: rest => allowed a b && statusTransitionsWithin allowed (b :: rest)

/-- C4 counterexample: executing the Jira flow built by `create_jira_flow`, the
trace of the fourth action ("Review Jira") and the fifth ("Finalize") each
contain the transition InProgress to Pending, which the claimed relation
forbids — so the claim fails on the code at this concrete input. -/
theorem c4_counterexample :
    ((FlowManager.new FlowIntent.Jira).create_jira_flow
        ⟨"T", "D", none⟩).toOption.map
      (fun s => s.actions.map
        (fun a => statusTransitionsWithin claimTransition
          (runAction (resolveFor FlowIntent.Jira) a).1)) =
      some [true, true, true, false, false] := by
  rfl

theorem resolveFor_eq_pending_iff (i : FlowIntent) (n : String) :
    resolveFor i n = FlowActionStatus.Pending ↔
      ((i = FlowIntent.Jira ∧ (n = "Review Jira" ∨ n = "Finalize")) ∨
       (i = FlowIntent.Confluence ∧ (n = "Review Confluence" ∨ n = "Finalize"))) := by
  cases i <;> simp only [resolveFor]
  · unfold resolveCodeAction
    split <;> simp
  · unfold resolveJiraAction
    split <;> simp_all
  · unfold resolveConfluenceAction
    split <;> simp_all

/-- C4 amended: during execution, an action starting at Pending only moves
along Pending to InProgress, and InProgress to Completed, Failed, or back to
Pending; the back-to-Pending transition occurs only — and exactly — for the
review and finalize steps of the Jira and Confluence runners, while every
other action follows the originally claimed relation. -/
theorem c4_amended_transitions (i : FlowIntent) (a : FlowAction)
    (h : a.status = FlowActionStatus.Pending) :
    statusTransitionsWithin amendedTransition
      (runAction (resolveFor i) a).1 = true ∧
    (¬ ((i = FlowIntent.Jira ∧ (a.name = "Review Jira" ∨ a.name = "Finalize")) ∨
        (i = FlowIntent.Confluence ∧
          (a.name = "Review Confluence" ∨ a.name = "Finalize"))) →
      statusTransitionsWithin claimTransition
        (runAction (resolveFor i) a).1 = true) ∧
    (resolveFor i a.name = FlowActionStatus.Pending ↔
      ((i = FlowIntent.Jira ∧ (a.name = "Review Jira" ∨ a.name = "Finalize")) ∨
       (i = FlowIntent.Confluence ∧
         (a.name = "Review Confluence" ∨ a.name = "Finalize")))) := by
  have hne := resolveFor_ne_inprogress i a.name
  refine ⟨?_, ?_, resolveFor_eq_pending_iff i a.name⟩
  · simp only [runAction, h, statusTransitionsWithin]
    cases hx : resolveFor i a.name <;>
      simp_all [amendedTransition, statusTransitionsWithin]
  · intro hnot
    have hnp : resolveFor i a.name ≠ FlowActionStatus.Pending :=
      fun hp => hnot ((resolveFor_eq_pending_iff i a.name).1 hp)
    simp only [runAction, h, statusTransitionsWithin]
    cases hx : resolveFor i a.name <;>
      simp_all [claimTransition, statusTransitionsWithin]

/-- Closed witness for `c4_amended_transitions` at the "Review Jira" action. -/
theorem c4_amended_transitions_witness :
    statusTransitionsWithin amendedTransition
      (runAction (resolveFor FlowIntent.Jira)
        ⟨"Review Jira", "Present proposal for review (no code modifications)",
         .Pending⟩).1 = true :=
  (c4_amended_transitions FlowIntent.Jira
    ⟨"Review Jira", "Present proposal for review (no code modifications)",
     .Pending⟩ rfl).1

/-- C9: `execute_flow` never validates the summary against the manager's bound
intent: for every summary (in particular one built from a different intent's
template) it returns ok, actions whose names fall outside the manager's
template are marked Failed rather than any `InvalidIntent` error being raised,
and the summary's own intent field does not influence the result. -/
theorem c9_execute_skips_intent_validation (i j : FlowIntent) (s : FlowSummary) :
    (∃ l, (FlowManager.new i).execute_flow s = .ok l ∧
      ∀ a ∈ l, a.name ∉ templateNames i → a.status = FlowActionStatus.Failed) ∧
    (FlowManager.new i).execute_flow { s with intent := j } =
      (FlowManager.new i).execute_flow s := by
  constructor
  · refine ⟨_, execute_flow_spec (FlowManager.new i) s, ?_⟩
    intro a ha hn
    obtain ⟨b, _, hb⟩ := List.mem_map.1 ha
    subst hb
    simpa [runAction] using resolveFor_of_not_mem hn
  · rw [execute_flow_spec, execute_flow_spec]

/-- Closed witness for `c9_execute_skips_intent_validation`: a Code-bound
manager executing a summary built from the Jira template. -/
theorem c9_execute_skips_intent_validation_witness :
    ∃ l, (FlowManager.new FlowIntent.Code).execute_flow
      { intent := .Jira
        description := "Jira flow: " ++ "Test"
        actions :=
          [ ⟨"Read Title & Description",
             "Parse and understand Jira requirements", .Pending⟩,
            ⟨"Analyze Requirements",
             "Use agents to analyze best approach for solution", .Pending⟩,
            ⟨"Generate Task Proposal",
             "Create detailed task breakdown and implementation plan", .Pending⟩,
            ⟨"Review Jira",
             "Present proposal for review (no code modifications)", .Pending⟩,
            ⟨"Finalize",
             "Confirm and save Jira task proposal", .Pending⟩ ] } = .ok l ∧
      ∀ a ∈ l, a.name ∉ templateNames FlowIntent.Code →
        a.status = FlowActionStatus.Failed :=
  (c9_execute_skips_intent_validation FlowIntent.Code FlowIntent.Jira _).1

/-! ### Build History Store (`task_build_history.rs`)

Times are modelled as natural numbers (seconds, matching SQLite's
second-granularity `datetime` comparisons) and identifiers as naturals. -/

/-- Context type of one build history entry (`TaskBuildHistoryContextType`). -/
inductive TaskBuildHistoryContextType where
  | ChatMessage
  | ExecutionStep
  | AgentTurn
  | SetupComplete
  | Error
  | StatusChange
deriving DecidableEq, Repr

/-- One build history row (`TaskBuildHistory`). -/
structure TaskBuildHistory where
  id : Nat
  task_id : Nat
  workspace_id : Option Nat
  session_id : Option Nat
  context_type : TaskBuildHistoryContextType
  content : String
  metadata : Option String
  created_at : Nat
  expires_at : Nat
deriving DecidableEq, Repr

/-- Caller-supplied fields of a new entry (`CreateTaskBuildHistory`). -/
structure CreateTaskBuildHistory where
  task_id : Nat
  workspace_id : Option Nat
  session_id : Option Nat
  context_type : TaskBuildHistoryContextType
  content : String
  metadata : Option String
deriving DecidableEq, Repr

/-- The state of the `task_build_history` table: its rows in physical insertion
order, plus the identifier source. -/
structure HistoryStore where
  entries : List TaskBuildHistory
  nextId : Nat
deriving DecidableEq, Repr

/-- The per-task cap of the retention invariant (spec section 4.4). -/
def MAX_TASK_ENTRIES : Nat := 100

/-- Number of rows of one task in a row list, regardless of expiry. -/
def countTaskEntries (l : List TaskBuildHistory) (tid : Nat) : Nat :=
  (l.filter (fun e => e.task_id = tid)).length

/-- Remove the first `n` rows of task `tid` from a row list, scanning from the
front (the oldest, FIFO by creation order for a store grown by appends). -/
def dropOldestForTask (tid : Nat) : Nat → List TaskBuildHistory → List TaskBuildHistory
  | 0, l => l
  | _ + 1, [] => []
  | n + 1, e :: rest =>
      if e.task_id = tid then dropOldestForTask tid n rest
      else e :: dropOldestForTask tid (n + 1) rest

/-- `TaskBuildHistory::create`. Modelled from the spec: the SQL migration that
defines the `task_build_history` table — its `created_at`/`expires_at` column
defaults and the insert-time FIFO-cap trigger the Rust code relies on ("usually
handled by trigger") — is not among the sources, so, following spec section 4.4,
the insert stamps `created_at` with the current instant, sets `expires_at` to
`created_at` plus the fixed retention window, and atomically evicts the oldest
rows of the task beyond the 100-row cap. -/
def TaskBuildHistory.create (retention : Nat) (now : Nat)
    (data : CreateTaskBuildHistory) (s : HistoryStore) :
    TaskBuildHistory × HistoryStore :=
  let e : TaskBuildHistory :=
    { id := s.nextId
      task_id := data.task_id
      workspace_id := data.workspace_id
      session_id := data.session_id
      context_type := data.context_type
      content := data.content
      metadata := data.metadata
      created_at := now
      expires_at := now + retention }
  let inserted := s.entries ++ [e]
  let over := countTaskEntries inserted data.task_id - MAX_TASK_ENTRIES
  (e, { entries := dropOldestForTask data.task_id over inserted
        nextId := s.nextId + 1 })

/-- The read-path expiry filter: `datetime(expires_at) >= datetime('now')`. -/
def notExpired (now : Nat) (e : TaskBuildHistory) : Bool :=
  now ≤ e.expires_at

/-- The `ORDER BY created_at ASC` comparison. -/
def byCreatedAt (a b : TaskBuildHistory) : Bool :=
  a.created_at ≤ b.created_at

/-- `TaskBuildHistory::find_by_task_id`: rows of the task whose expiry has not
elapsed, ordered by creation time ascending. -/
def TaskBuildHistory.find_by_task_id (s : HistoryStore) (tid : Nat) (now : Nat) :
    List TaskBuildHistory :=
  (s.entries.filter (fun e => decide (e.task_id = tid) && notExpired now e)).mergeSort
    byCreatedAt

/-- `TaskBuildHistory::find_by_workspace_id`. -/
def TaskBuildHistory.find_by_workspace_id (s : HistoryStore) (wid : Nat) (now : Nat) :
    List TaskBuildHistory :=
  (s.entries.filter
    (fun e => decide (e.workspace_id = some wid) && notExpired now e)).mergeSort
    byCreatedAt

/-- `TaskBuildHistory::find_by_session_id`. -/
def TaskBuildHistory.find_by_session_id (s : HistoryStore) (sid : Nat) (now : Nat) :
    List TaskBuildHistory :=
  (s.entries.filter
    (fun e => decide (e.session_id = some sid) && notExpired now e)).mergeSort
    byCreatedAt

/-- `TaskBuildHistory::count_by_task_id`: `COUNT(*)` over the non-expired rows
of the task. -/
def TaskBuildHistory.count_by_task_id (s : HistoryStore) (tid : Nat) (now : Nat) : Nat :=
  (s.entries.filter (fun e => decide (e.task_id = tid) && notExpired now e)).length

/-- `TaskBuildHistory::cleanup_expired`: delete rows with
`datetime(expires_at) < datetime('now')`; returns the new state and the number
of rows affected. -/
def TaskBuildHistory.cleanup_expired (s : HistoryStore) (now : Nat) :
    HistoryStore × Nat :=
  ({ s with entries := s.entries.filter (fun e => !decide (e.expires_at < now)) },
   (s.entries.filter (fun e => decide (e.expires_at < now))).length)

theorem countTaskEntries_cons (e : TaskBuildHistory) (l : List TaskBuildHistory)
    (tid : Nat) :
    countTaskEntries (e :: l) tid =
      (if e.task_id = tid then 1 else 0) + countTaskEntries l tid := by
  by_cases h : e.task_id = tid <;>
    simp [countTaskEntries, List.filter_cons, h, Nat.add_comm]

theorem countTaskEntries_dropOldestForTask (tid : Nat) :
    ∀ (n : Nat) (l : List TaskBuildHistory),
      countTaskEntries (dropOldestForTask tid n l) tid = countTaskEntries l tid - n
  | 0, l => by simp [dropOldestForTask]
  | n + 1, [] => by simp [dropOldestForTask, countTaskEntries]
  | n + 1, e :: rest => by
      simp only [dropOldestForTask]
      by_cases h : e.task_id = tid
      · rw [if_pos h, countTaskEntries_dropOldestForTask tid n rest,
          countTaskEntries_cons, if_pos h]
        omega
      · rw [if_neg h, countTaskEntries_cons, if_neg h,
          countTaskEntries_dropOldestForTask tid (n + 1) rest,
          countTaskEntries_cons, if_neg h]
        omega
termination_by _ l => l.length

theorem countTaskEntries_append (l₁ l₂ : List TaskBuildHistory) (tid : Nat) :
    countTaskEntries (l₁ ++ l₂) tid =
      countTaskEntries l₁ tid + countTaskEntries l₂ tid := by
  simp [countTaskEntries, List.filter_append]

theorem dropOldestForTask_append_last (tid : Nat) (e : TaskBuildHistory) :
    ∀ (n : Nat) (l : List TaskBuildHistory), n ≤ countTaskEntries l tid →
      dropOldestForTask tid n (l ++ [e]) = dropOldestForTask tid n l ++ [e]
  | 0, l, _ => by simp [dropOldestForTask]
  | n + 1, [], h => by simp [countTaskEntries] at h
  | n + 1, x :: xs, h => by
      by_cases hx : x.task_id = tid
      · simp only [List.cons_append, dropOldestForTask, if_pos hx]
        refine dropOldestForTask_append_last tid e n xs ?_
        rw [countTaskEntries_cons, if_pos hx] at h
        omega
      · simp only [List.cons_append, dropOldestForTask, if_neg hx]
        refine congrArg (x :: ·) (dropOldestForTask_append_last tid e (n + 1) xs ?_)
        rw [countTaskEntries_cons, if_neg hx] at h
        omega
termination_by _ l _ => l.length

theorem length_filter_and_le (l : List TaskBuildHistory)
    (p q : TaskBuildHistory → Bool) :
    (l.filter (fun e => p e && q e)).length ≤ (l.filter p).length := by
  induction l with
  | nil => simp
  | cons x xs ih =>
      simp only [List.filter_cons]
      by_cases hp : p x
      · by_cases hq : q x
        · simp only [hp, hq, Bool.and_self, if_pos, List.length_cons]
          exact Nat.succ_le_succ ih
        · simp only [hp, hq, Bool.and_false, Bool.false_eq_true, if_neg,
            List.length_cons, if_pos]
          exact Nat.le_succ_of_le ih
      · simp only [hp, Bool.false_and, Bool.false_eq_true, if_neg]
        exact ih

theorem countTaskEntries_cap (tid : Nat) (l : List TaskBuildHistory) :
    countTaskEntries
      (dropOldestForTask tid (countTaskEntries l tid - MAX_TASK_ENTRIES) l) tid ≤ 100 := by
  rw [countTaskEntries_dropOldestForTask]
  have h : MAX_TASK_ENTRIES = 100 := rfl
  omega

theorem mem_dropOldest_cap (tid : Nat) (e : TaskBuildHistory)
    (he : e.task_id = tid) (l : List TaskBuildHistory) :
    e ∈ dropOldestForTask tid
      (countTaskEntries (l ++ [e]) tid - MAX_TASK_ENTRIES) (l ++ [e]) := by
  rw [dropOldestForTask_append_last tid e _ l ?hle]
  · exact List.mem_append_right _ (List.mem_singleton.2 rfl)
  case hle =>
    rw [countTaskEntries_append]
    have h1 : countTaskEntries [e] tid = 1 := by simp [countTaskEntries, he]
    have h2 : MAX_TASK_ENTRIES = 100 := rfl
    omega

/-- C5: after any insert, at most 100 entries of the inserted entry's task are
visible through `count_by_task_id` and `find_by_task_id` at any query instant
(so inserting 105 entries for one task leaves at most 100 visible), and the
entry created last is among the rows `find_by_task_id` returns as long as its
expiry has not elapsed; the eviction of the over-cap oldest rows is part of the
single step `create` performs. -/
theorem c5_retention_cap (retention now qnow : Nat)
    (data : CreateTaskBuildHistory) (s : HistoryStore) :
    TaskBuildHistory.count_by_task_id
      (TaskBuildHistory.create retention now data s).2 data.task_id qnow ≤ 100 ∧
    (TaskBuildHistory.find_by_task_id
      (TaskBuildHistory.create retention now data s).2 data.task_id qnow).length ≤ 100 ∧
    (qnow ≤ now + retention →
      (TaskBuildHistory.create retention now data s).1 ∈
        TaskBuildHistory.find_by_task_id
          (TaskBuildHistory.create retention now data s).2 data.task_id qnow) := by
  have hcount : countTaskEntries
      ((TaskBuildHistory.create retention now data s).2).entries data.task_id ≤ 100 :=
    countTaskEntries_cap data.task_id _
  have hfilter_le : ∀ qn : Nat,
      (((TaskBuildHistory.create retention now data s).2).entries.filter
        (fun e => decide (e.task_id = data.task_id) && notExpired qn e)).length ≤ 100 := by
    intro qn
    exact le_trans
      (length_filter_and_le ((TaskBuildHistory.create retention now data s).2).entries
        (fun e => decide (e.task_id = data.task_id)) (notExpired qn))
      hcount
  refine ⟨hfilter_le qnow, ?_, ?_⟩
  · simpa [TaskBuildHistory.find_by_task_id] using hfilter_le qnow
  · intro hq
    simp only [TaskBuildHistory.find_by_task_id, List.mem_mergeSort, List.mem_filter]
    refine ⟨mem_dropOldest_cap data.task_id _ rfl s.entries, ?_⟩
    simp [TaskBuildHistory.create, notExpired, hq]

/-- Closed witness for `c5_retention_cap`: one insert into the empty store. -/
theorem c5_retention_cap_witness :
    TaskBuildHistory.count_by_task_id
      (TaskBuildHistory.create 3600 10
        ⟨7, none, none, .ChatMessage, "m", none⟩ ⟨[], 0⟩).2 7 10 ≤ 100 ∧
    (TaskBuildHistory.create 3600 10
        ⟨7, none, none, .ChatMessage, "m", none⟩ ⟨[], 0⟩).1 ∈
      TaskBuildHistory.find_by_task_id
        (TaskBuildHistory.create 3600 10
          ⟨7, none, none, .ChatMessage, "m", none⟩ ⟨[], 0⟩).2 7 10 :=
  ⟨(c5_retention_cap 3600 10 10 ⟨7, none, none, .ChatMessage, "m", none⟩ ⟨[], 0⟩).1,
   (c5_retention_cap 3600 10 10 ⟨7, none, none, .ChatMessage, "m", none⟩ ⟨[], 0⟩).2.2
     (by omega)⟩

theorem byCreatedAt_trans (a b c : TaskBuildHistory) :
    byCreatedAt a b → byCreatedAt b c → byCreatedAt a c := by
  simp only [byCreatedAt, decide_eq_true_eq]
  omega

theorem byCreatedAt_total (a b : TaskBuildHistory) :
    byCreatedAt a b || byCreatedAt b a := by
  simp only [byCreatedAt, Bool.or_eq_true, decide_eq_true_eq]
  omega

theorem pairwise_createdAt_mergeSort (l : List TaskBuildHistory) :
    List.Pairwise (fun a b => a.created_at ≤ b.created_at)
      (l.mergeSort byCreatedAt) := by
  have h := List.sorted_mergeSort byCreatedAt_trans byCreatedAt_total l
  exact h.imp (by intro a b hab; simpa [byCreatedAt] using hab)

theorem filter_cleanup_keep (now : Nat) (p : TaskBuildHistory → Bool)
    (hp : ∀ e, p e = true → now ≤ e.expires_at) :
    ∀ l : List TaskBuildHistory,
      (l.filter (fun e => !decide (e.expires_at < now))).filter p = l.filter p
  | [] => rfl
  | x :: xs => by
      by_cases hx : p x
      · have hkeep : (!decide (x.expires_at < now)) = true := by
          have := hp x hx
          simp only [Bool.not_eq_true', decide_eq_false_iff_not, not_lt]
          omega
        simp [List.filter_cons, hx, hkeep, filter_cleanup_keep now p hp xs]
      · by_cases hk : x.expires_at < now <;>
          simp [List.filter_cons, hx, hk, filter_cleanup_keep now p hp xs]

/-- C6: the three `find_by_*` reads return only non-expired entries with the
queried key, ordered by creation time ascending; an expired entry is excluded
from every read and from `count_by_task_id` even before `cleanup_expired` runs
(all reads and the count are unchanged by a cleanup at the same instant);
`cleanup_expired` physically removes every expired entry and is idempotent (a
repeated call changes nothing and deletes zero rows). -/
theorem c6_reads_respect_expiry (s : HistoryStore) (tid wid sid now : Nat) :
    (∀ e ∈ TaskBuildHistory.find_by_task_id s tid now,
      e.task_id = tid ∧ now ≤ e.expires_at) ∧
    (∀ e ∈ TaskBuildHistory.find_by_workspace_id s wid now,
      e.workspace_id = some wid ∧ now ≤ e.expires_at) ∧
    (∀ e ∈ TaskBuildHistory.find_by_session_id s sid now,
      e.session_id = some sid ∧ now ≤ e.expires_at) ∧
    List.Pairwise (fun a b => a.created_at ≤ b.created_at)
      (TaskBuildHistory.find_by_task_id s tid now) ∧
    List.Pairwise (fun a b => a.created_at ≤ b.created_at)
      (TaskBuildHistory.find_by_workspace_id s wid now) ∧
    List.Pairwise (fun a b => a.created_at ≤ b.created_at)
      (TaskBuildHistory.find_by_session_id s sid now) ∧
    TaskBuildHistory.find_by_task_id
      (TaskBuildHistory.cleanup_expired s now).1 tid now =
      TaskBuildHistory.find_by_task_id s tid now ∧
    TaskBuildHistory.find_by_workspace_id
      (TaskBuildHistory.cleanup_expired s now).1 wid now =
      TaskBuildHistory.find_by_workspace_id s wid now ∧
    TaskBuildHistory.find_by_session_id
      (TaskBuildHistory.cleanup_expired s now).1 sid now =
      TaskBuildHistory.find_by_session_id s sid now ∧
    TaskBuildHistory.count_by_task_id
      (TaskBuildHistory.cleanup_expired s now).1 tid now =
      TaskBuildHistory.count_by_task_id s tid now ∧
    (∀ e ∈ ((TaskBuildHistory.cleanup_expired s now).1).entries,
      now ≤ e.expires_at) ∧
    TaskBuildHistory.cleanup_expired
      (TaskBuildHistory.cleanup_expired s now).1 now =
      ((TaskBuildHistory.cleanup_expired s now).1, 0) := by
  have hkeep₁ : ∀ e : TaskBuildHistory,
      (fun e => decide (e.task_id = tid) && notExpired now e) e = true →
        now ≤ e.expires_at := by
    intro e h
    simp only [Bool.and_eq_true, decide_eq_true_eq, notExpired] at h
    exact h.2
  have hkeep₂ : ∀ e : TaskBuildHistory,
      (fun e => decide (e.workspace_id = some wid) && notExpired now e) e = true →
        now ≤ e.expires_at := by
    intro e h
    simp only [Bool.and_eq_true, decide_eq_true_eq, notExpired] at h
    exact h.2
  have hkeep₃ : ∀ e : TaskBuildHistory,
      (fun e => decide (e.session_id = some sid) && notExpired now e) e = true →
        now ≤ e.expires_at := by
    intro e h
    simp only [Bool.and_eq_true, decide_eq_true_eq, notExpired] at h
    exact h.2
  refine ⟨?_, ?_, ?_, pairwise_createdAt_mergeSort _, pairwise_createdAt_mergeSort _,
    pairwise_createdAt_mergeSort _, ?_, ?_, ?_, ?_, ?_, ?_⟩
  · intro e he
    simp only [TaskBuildHistory.find_by_task_id, List.mem_mergeSort,
      List.mem_filter, Bool.and_eq_true, decide_eq_true_eq, notExpired] at he
    exact ⟨he.2.1, by simpa using he.2.2⟩
  · intro e he
    simp only [TaskBuildHistory.find_by_workspace_id, List.mem_mergeSort,
      List.mem_filter, Bool.and_eq_true, decide_eq_true_eq, notExpired] at he
    exact ⟨he.2.1, by simpa using he.2.2⟩
  · intro e he
    simp only [TaskBuildHistory.find_by_session_id, List.mem_mergeSort,
      List.mem_filter, Bool.and_eq_true, decide_eq_true_eq, notExpired] at he
    exact ⟨he.2.1, by simpa using he.2.2⟩
  · simp only [TaskBuildHistory.find_by_task_id, TaskBuildHistory.cleanup_expired]
    rw [filter_cleanup_keep now _ hkeep₁ s.entries]
  · simp only [TaskBuildHistory.find_by_workspace_id, TaskBuildHistory.cleanup_expired]
    rw [filter_cleanup_keep now _ hkeep₂ s.entries]
  · simp only [TaskBuildHistory.find_by_session_id, TaskBuildHistory.cleanup_expired]
    rw [filter_cleanup_keep now _ hkeep₃ s.entries]
  · simp only [TaskBuildHistory.count_by_task_id, TaskBuildHistory.cleanup_expired]
    rw [filter_cleanup_keep now _ hkeep₁ s.entries]
  · intro e he
    simp only [TaskBuildHistory.cleanup_expired, List.mem_filter,
      Bool.not_eq_true', decide_eq_false_iff_not, not_lt] at he
    exact he.2
  · simp only [TaskBuildHistory.cleanup_expired, Prod.mk.injEq]
    constructor
    · rw [List.filter_filter]
      exact congrArg (HistoryStore.mk · s.nextId)
        (List.filter_congr (fun e _ => Bool.and_self _))
    · rw [List.length_eq_zero, List.filter_eq_nil_iff]
      intro e he
      have h2 := (List.mem_filter.1 he).2
      simp only [Bool.not_eq_true', decide_eq_false_iff_not] at h2
      simp [h2]

/-- Closed witness for `c6_reads_respect_expiry` on a one-entry store. -/
theorem c6_reads_respect_expiry_witness :
    (⟨0, 7, some 3, some 4, .ChatMessage, "m", none, 5, 9⟩ : TaskBuildHistory).task_id = 7 ∧
    9 ≤ (⟨0, 7, some 3, some 4, .ChatMessage, "m", none, 5, 9⟩ : TaskBuildHistory).expires_at :=
  (c6_reads_respect_expiry ⟨[⟨0, 7, some 3, some 4, .ChatMessage, "m", none, 5, 9⟩], 1⟩
      7 3 4 9).1
    ⟨0, 7, some 3, some 4, .ChatMessage, "m", none, 5, 9⟩
    (by simp [TaskBuildHistory.find_by_task_id, notExpired])

/-- C10: an entry whose `expires_at` equals the query instant is still returned
by every `find_by_*` read and counted by `count_by_task_id` (the read filter is
`expires_at >= now`), yet `cleanup_expired` at that same instant does not
remove it (the deletion condition is `expires_at < now`). -/
theorem c10_expiry_boundary (s : HistoryStore) (e : TaskBuildHistory) (now : Nat)
    (he : e ∈ s.entries) (hx : e.expires_at = now) :
    e ∈ TaskBuildHistory.find_by_task_id s e.task_id now ∧
    1 ≤ TaskBuildHistory.count_by_task_id s e.task_id now ∧
    (∀ wid, e.workspace_id = some wid →
      e ∈ TaskBuildHistory.find_by_workspace_id s wid now) ∧
    (∀ sid, e.session_id = some sid →
      e ∈ TaskBuildHistory.find_by_session_id s sid now) ∧
    e ∈ ((TaskBuildHistory.cleanup_expired s now).1).entries := by
  have hne : notExpired now e = true := by simp [notExpired, hx]
  refine ⟨?_, ?_, ?_, ?_, ?_⟩
  · simp only [TaskBuildHistory.find_by_task_id, List.mem_mergeSort, List.mem_filter]
    exact ⟨he, by simp [hne]⟩
  · exact List.length_pos_of_mem
      (List.mem_filter.2 ⟨he, by simp [hne]⟩)
  · intro wid hw
    simp only [TaskBuildHistory.find_by_workspace_id, List.mem_mergeSort,
      List.mem_filter]
    exact ⟨he, by simp [hne, hw]⟩
  · intro sid hsid
    simp only [TaskBuildHistory.find_by_session_id, List.mem_mergeSort,
      List.mem_filter]
    exact ⟨he, by simp [hne, hsid]⟩
  · exact List.mem_filter.2 ⟨he, by simp [hx]⟩

/-- Closed witness for `c10_expiry_boundary` on a one-entry store whose entry
expires exactly at the query instant. -/
theorem c10_expiry_boundary_witness :
    (⟨0, 7, some 3, some 4, .ChatMessage, "m", none, 5, 9⟩ : TaskBuildHistory) ∈
      TaskBuildHistory.find_by_task_id
        ⟨[⟨0, 7, some 3, some 4, .ChatMessage, "m", none, 5, 9⟩], 1⟩ 7 9 ∧
    (⟨0, 7, some 3, some 4, .ChatMessage, "m", none, 5, 9⟩ : TaskBuildHistory) ∈
      ((TaskBuildHistory.cleanup_expired
        ⟨[⟨0, 7, some 3, some 4, .ChatMessage, "m", none, 5, 9⟩], 1⟩ 9).1).entries :=
  ⟨(c10_expiry_boundary ⟨[⟨0, 7, some 3, some 4, .ChatMessage, "m", none, 5, 9⟩], 1⟩
      ⟨0, 7, some 3, some 4, .ChatMessage, "m", none, 5, 9⟩ 9
      (by simp) rfl).1,
   (c10_expiry_boundary ⟨[⟨0, 7, some 3, some 4, .ChatMessage, "m", none, 5, 9⟩], 1⟩
      ⟨0, 7, some 3, some 4, .ChatMessage, "m", none, 5, 9⟩ 9
      (by simp) rfl).2.2.2.2⟩

/-! ### Review-agent action spawn contract (`review_agent.rs`)

Filesystem paths are modelled as component lists; `Path.join` appends the
relative override, as `PathBuf::join` does for a relative argument. The
Profile Registry (`ExecutorConfigs::get_cached().get_coding_agent`) and the
executor internals live outside the shown sources, so the registry is a
parameter mapping a profile id to an optional agent, and an agent's own spawn
is modelled as producing a handle that records the arguments of the
delegation. -/

/-- A filesystem path as its components. -/
abbrev Path := List String

/-- `Path::join` with a relative component. -/
def Path.join (p : Path) (rel : String) : Path := p ++ [rel]

/-- The profile key resolved through the registry, with its
`to_string` rendering (an opaque key in this slice). -/
structure ExecutorProfileId where
  raw : String
deriving DecidableEq, Repr

/-- `ExecutorProfileId::to_string`. -/
def ExecutorProfileId.to_string (p : ExecutorProfileId) : String := p.raw

/-- A concrete coding agent resolved from the registry. -/
structure CodingAgent where
  agentId : Nat
deriving DecidableEq, Repr

/-- The shared approval-gate capability, an abstract token here. -/
structure ApprovalService where
  serviceId : Nat
deriving DecidableEq, Repr

/-- An execution environment value. -/
structure ExecutionEnv where
  vars : List (String × String)
deriving DecidableEq, Repr

/-- The executor-level errors the spawn path can produce
(`ExecutorError::UnknownExecutorType` and the remaining kinds collapsed). -/
inductive ExecutorError where
  | UnknownExecutorType (s : String)
  | SpawnFailed (s : String)
deriving DecidableEq, Repr

/-- The running-process handle returned from a spawn, recording the delegated
call: which agent was invoked, with which approvals, in which effective
directory, with which prompt and environment. -/
structure SpawnedChild where
  agent : CodingAgent
  approvals : ApprovalService
  dir : Path
  prompt : String
  env : ExecutionEnv
deriving DecidableEq, Repr

/-- The resolved agent's own spawn operation (outside this core): it produces
the handle for the delegated call. -/
def CodingAgent.runSpawn (a : CodingAgent) (dir : Path) (prompt : String)
    (env : ExecutionEnv) (approvals : ApprovalService) : SpawnedChild :=
  { agent := a, approvals := approvals, dir := dir, prompt := prompt, env := env }

/-- A review-agent request (`ReviewAgentRequest`): prompt, executor profile id
and optional relative working-directory override. -/
structure ReviewAgentRequest where
  prompt : String
  executor_profile_id : ExecutorProfileId
  working_dir : Option String
deriving DecidableEq, Repr

/-- `ReviewAgentRequest::spawn` (the `Executable` implementation): resolve the
effective working directory from the optional override, resolve the agent from
the registry — failing with `UnknownExecutorType` of the stringified profile id
when unresolved — bind the approvals, and delegate to the agent's spawn. -/
def ReviewAgentRequest.spawn (registry : ExecutorProfileId → Option CodingAgent)
    (req : ReviewAgentRequest) (current_dir : Path)
    (approvals : ApprovalService) (env : ExecutionEnv) :
    Except ExecutorError SpawnedChild :=
  let effective_dir : Path :=
    match req.working_dir with
    | some rel_path => current_dir.join rel_path
    | none => current_dir
  match registry req.executor_profile_id with
  | none => .error (.UnknownExecutorType req.executor_profile_id.to_string)
  | some agent => .ok (agent.runSpawn effective_dir req.prompt env approvals)

/-- C7: whenever a review-action spawn succeeds, the effective working
directory it passed to the resolved executor is the caller's base directory
unchanged when no override is carried, and the base directory joined with the
override when one is. -/
theorem c7_effective_working_dir
    (registry : ExecutorProfileId → Option CodingAgent)
    (req : ReviewAgentRequest) (dir : Path) (approvals : ApprovalService)
    (env : ExecutionEnv) (child : SpawnedChild)
    (h : ReviewAgentRequest.spawn registry req dir approvals env = .ok child) :
    (req.working_dir = none → child.dir = dir) ∧
    (∀ rel, req.working_dir = some rel → child.dir = Path.join dir rel) := by
  constructor
  · intro hw
    simp only [ReviewAgentRequest.spawn, hw] at h
    cases hr : registry req.executor_profile_id <;> rw [hr] at h
    · exact absurd h (by simp)
    · cases h
      rfl
  · intro rel hw
    simp only [ReviewAgentRequest.spawn, hw] at h
    cases hr : registry req.executor_profile_id <;> rw [hr] at h
    · exact absurd h (by simp)
    · cases h
      rfl

/-- Closed witness for `c7_effective_working_dir`: with override "sub" the
effective directory is the base joined with "sub". -/
theorem c7_effective_working_dir_witness :
    (⟨⟨20⟩, ⟨1⟩, ["base"] ++ ["sub"], "p", ⟨[]⟩⟩ : SpawnedChild).dir =
      Path.join ["base"] "sub" :=
  (c7_effective_working_dir (fun _ => some ⟨20⟩)
    ⟨"p", ⟨"claude"⟩, some "sub"⟩ ["base"] ⟨1⟩ ⟨[]⟩
    ⟨⟨20⟩, ⟨1⟩, ["base"] ++ ["sub"], "p", ⟨[]⟩⟩ rfl).2 "sub" rfl

/-- C8: when the registry cannot resolve the request's profile id, spawn fails
with `UnknownExecutorType` carrying the stringified profile id, and no agent
spawn is attempted (no handle is ever produced). -/
theorem c8_unknown_executor_type
    (registry : ExecutorProfileId → Option CodingAgent)
    (req : ReviewAgentRequest) (dir : Path) (approvals : ApprovalService)
    (env : ExecutionEnv)
    (h : registry req.executor_profile_id = none) :
    ReviewAgentRequest.spawn registry req dir approvals env =
      .error (.UnknownExecutorType req.executor_profile_id.to_string) ∧
    ∀ child, ReviewAgentRequest.spawn registry req dir approvals env ≠ .ok child := by
  have hs : ReviewAgentRequest.spawn registry req dir approvals env =
      .error (.UnknownExecutorType req.executor_profile_id.to_string) := by
    simp only [ReviewAgentRequest.spawn, h]
  exact ⟨hs, fun child hc => by rw [hs] at hc; exact absurd hc (by simp)⟩

/-- Closed witness for `c8_unknown_executor_type` with an empty registry. -/
theorem c8_unknown_executor_type_witness :
    ReviewAgentRequest.spawn (fun _ => none)
      ⟨"p", ⟨"mystery"⟩, none⟩ ["base"] ⟨1⟩ ⟨[]⟩ =
      .error (.UnknownExecutorType (ExecutorProfileId.to_string ⟨"mystery"⟩)) :=
  (c8_unknown_executor_type (fun _ => none)
    ⟨"p", ⟨"mystery"⟩, none⟩ ["base"] ⟨1⟩ ⟨[]⟩ rfl).1

end TaskCopilot
